import Mathlib

/-!
Verification development for the eZ80 emulator core:
`src/environment.rs` (execution environment: mode-aware addressing, stack
discipline) and `src/agon_machine.rs` (memory model and the MOS host
filesystem trap handlers).

Machine integers are embedded as `Nat` with explicit reduction modulo
`2^8` / `2^16` / `2^24` / `2^32` at the points where the Rust code casts
(`as u8`, `as u16`, `as u32`) or uses wrapping arithmetic.  Addresses are
`u32` values, kept as naturals below `2^32` by the call sites.
-/

namespace EZ80

/-! ## Registers and machine state

The register file (`registers.rs`) and processor state (`state.rs`) are
external collaborators of the two files under study; they are modelled
from the spec.
-/

/-- The 16-bit register pair names used by the environment
(`Reg16` in `registers.rs`). -/
inductive Reg16 where
  | AF | BC | DE | HL | IX | IY | SP
  deriving DecidableEq

/-- Modelled from the spec: the register file (`registers.rs`, not under
`src/`).  Each pair has a 24-bit backing value; `mbase` is the 8-bit bank
base ("a relocation register adding a fixed high-order offset to computed
addresses in short (16-bit) mode"). -/
structure Registers where
  val : Reg16 → Nat
  mbase : Nat

/-- Modelled from the spec: 24-bit read of a register pair. -/
def Registers.get24 (r : Registers) (rr : Reg16) : Nat := r.val rr % 2^24

/-- Modelled from the spec: 16-bit read of a register pair. -/
def Registers.get16 (r : Registers) (rr : Reg16) : Nat := r.val rr % 2^16

/-- Modelled from the spec: 16-bit read relocated by the bank base —
the bank base contributes the high-order byte: `MBASE*2^16 + low16`. -/
def Registers.get16_mbase (r : Registers) (rr : Reg16) : Nat :=
  r.mbase % 2^8 * 2^16 + r.val rr % 2^16

/-- Modelled from the spec: 24-bit write of a register pair. -/
def Registers.set24 (r : Registers) (rr : Reg16) (v : Nat) : Registers :=
  { r with val := fun x => if x = rr then v % 2^24 else r.val x }

/-- Modelled from the spec: 16-bit write of a register pair; the byte
above the written 16 bits is left alone. -/
def Registers.set16 (r : Registers) (rr : Reg16) (v : Nat) : Registers :=
  { r with val := fun x => if x = rr then r.val x / 2^16 * 2^16 + v % 2^16 else r.val x }

/-- Modelled from the spec: the processor state (`state.rs`, not under
`src/`): register file, program counter, the two addressing-mode flags
("operand is long", "immediate is long"), the currently selected index
register and the pending signed displacement. -/
structure State where
  reg : Registers
  pc : Nat
  op_long : Bool
  imm_long : Bool
  index : Reg16
  displacement : Int

/-- `State::is_op_long` — the "operand is long" flag. -/
def State.is_op_long (s : State) : Bool := s.op_long

/-- Modelled from the spec: `State::sp()` — the current stack pointer as a
full address: the 24-bit SP register in long mode, the bank-base-relocated
16-bit SP in short mode. -/
def State.sp (s : State) : Nat :=
  if s.op_long then s.reg.get24 Reg16.SP else s.reg.get16_mbase Reg16.SP

/-- Modelled from the spec: `State::set_pc`. -/
def State.set_pc (s : State) (v : Nat) : State := { s with pc := v }

/-! ## Ideal memory

`Environment` is generic over the `Machine` trait (the MemoryIoPort
contract).  For the environment-level claims we instantiate it with an
ideal byte store: every poke is recorded, every peek returns the stored
byte.  (The concrete `AgonMachine` implementation with its bounds
checking is embedded separately below.)
-/

/-- An ideal byte-addressed memory: `u32` address to `u8` value. -/
abbrev Mem := Nat → Nat

/-- `Machine::peek` against the ideal store (result is a `u8`). -/
def Mem.peek (m : Mem) (a : Nat) : Nat := m a % 2^8

/-- `Machine::poke` against the ideal store (stores a `u8`). -/
def Mem.poke (m : Mem) (a v : Nat) : Mem :=
  fun x => if x = a then v % 2^8 else m x

/-- `u32::wrapping_sub(1)` on an address already below `2^32`. -/
def wsub1 (a : Nat) : Nat := (a + (2^32 - 1)) % 2^32

/-! ## Environment (`environment.rs`) -/

/-- `Environment`: a processor state paired with its memory substrate. -/
structure Env where
  state : State
  mem : Mem

/-- `Environment::wrap_address` (environment.rs:18-24): mode-aware address
increment.  Long mode: `address.wrapping_add(increment as u32)`.  Short
mode: `(address & 0xff0000) + (address as u16).wrapping_add(increment as u16) as u32`
— only the low 16 bits increment and wrap, the bank byte stays fixed. -/
def Env.wrap_address (e : Env) (address : Nat) (increment : Int) : Nat :=
  if e.state.is_op_long then
    (address + (increment % (2^32 : Int)).toNat) % 2^32
  else
    address / 2^16 % 2^8 * 2^16 + (address % 2^16 + (increment % (2^16 : Int)).toNat) % 2^16

/-- `Environment::peek16` (environment.rs:36-39): little-endian 16-bit
read; the second byte's address goes through `wrap_address`. -/
def Env.peek16 (e : Env) (address : Nat) : Nat :=
  e.mem.peek address + e.mem.peek (e.wrap_address address 1) * 2^8

/-- `Environment::poke16` (environment.rs:42-45): little-endian 16-bit
write; the second byte's address goes through `wrap_address`. -/
def Env.poke16 (e : Env) (address value : Nat) : Env :=
  { e with mem :=
      ((e.mem.poke address (value % 2^8)).poke
        (e.wrap_address address 1) (value / 2^8 % 2^8)) }

/-- `Environment::peek24` (environment.rs:47-51). -/
def Env.peek24 (e : Env) (address : Nat) : Nat :=
  e.mem.peek address + e.mem.peek (e.wrap_address address 1) * 2^8
    + e.mem.peek (e.wrap_address address 2) * 2^16

/-- `Environment::poke24` (environment.rs:53-57). -/
def Env.poke24 (e : Env) (address value : Nat) : Env :=
  { e with mem :=
      (((e.mem.poke address (value % 2^8)).poke
        (e.wrap_address address 1) (value / 2^8 % 2^8)).poke
        (e.wrap_address address 2) (value / 2^16 % 2^8)) }

/-- `Environment::push` (environment.rs:105-128).  The stack pointer is
decremented with `u32::wrapping_sub`; in long mode the upper byte `u` is
pushed first, then `h`, then `l`; the SP register is rewritten at 24-bit
width in long mode and 16-bit width (`sp as u16`) in short mode. -/
def Env.push (e : Env) (value : Nat) : Env :=
  if e.state.is_op_long then
    { state := { e.state with reg :=
        (e.state.reg.set24 Reg16.SP (wsub1 (wsub1 (wsub1 e.state.sp)))) },
      mem :=
        (((e.mem.poke (wsub1 e.state.sp) (value / 2^16 % 2^8)).poke
          (wsub1 (wsub1 e.state.sp)) (value / 2^8 % 2^8)).poke
          (wsub1 (wsub1 (wsub1 e.state.sp))) (value % 2^8)) }
  else
    { state := { e.state with reg :=
        (e.state.reg.set16 Reg16.SP (wsub1 (wsub1 e.state.sp))) },
      mem :=
        ((e.mem.poke (wsub1 e.state.sp) (value / 2^8 % 2^8)).poke
          (wsub1 (wsub1 e.state.sp)) (value % 2^8)) }

/-- `Environment::pop` (environment.rs:130-152).  Bytes are read
low-to-high with the mode-aware `wrap_address` increment; in short mode
the upper byte `u` stays zero; the SP register is rewritten at the
mode's width. -/
def Env.pop (e : Env) : Nat × Env :=
  if e.state.is_op_long then
    (e.mem.peek e.state.sp
      + e.mem.peek (e.wrap_address e.state.sp 1) * 2^8
      + e.mem.peek (e.wrap_address (e.wrap_address e.state.sp 1) 1) * 2^16,
     { e with state := { e.state with reg :=
         (e.state.reg.set24 Reg16.SP
           (e.wrap_address (e.wrap_address (e.wrap_address e.state.sp 1) 1) 1)) } })
  else
    (e.mem.peek e.state.sp + e.mem.peek (e.wrap_address e.state.sp 1) * 2^8,
     { e with state := { e.state with reg :=
         (e.state.reg.set16 Reg16.SP
           (e.wrap_address (e.wrap_address e.state.sp 1) 1)) } })

/-- `Environment::subroutine_return` (environment.rs:160-165): pops a
value; `panic!("reset!")` — modelled as `none` — exactly when the popped
value is zero, otherwise the program counter is set to it. -/
def Env.subroutine_return (e : Env) : Option Env :=
  if (e.pop).1 = 0 then none
  else some { (e.pop).2 with state := ((e.pop).2).state.set_pc (e.pop).1 }

/-- `Environment::is_alt_index` (environment.rs:187-189). -/
def Env.is_alt_index (e : Env) : Bool := decide (e.state.index ≠ Reg16.HL)

/-- `Environment::index_value` (environment.rs:203-209): long mode reads
the 24-bit index register, short mode the bank-base-relocated 16-bit
value. -/
def Env.index_value (e : Env) : Nat :=
  if e.state.is_op_long then e.state.reg.get24 e.state.index
  else e.state.reg.get16_mbase e.state.index

/-- `Environment::index_address` (environment.rs:211-223): note that the
source selects `get16_mbase` when `is_op_long()` and `get24` otherwise —
the opposite arm order from `index_value` directly above it.  When an
alternate index is selected the pending signed displacement is added via
`(address as i32).wrapping_add(displacement as i32) as u32`. -/
def Env.index_address (e : Env) : Nat :=
  if e.is_alt_index then
    ((((if e.state.is_op_long then e.state.reg.get16_mbase e.state.index
        else e.state.reg.get24 e.state.index) : Int)
       + e.state.displacement) % (2^32 : Int)).toNat
  else
    if e.state.is_op_long then e.state.reg.get16_mbase e.state.index
    else e.state.reg.get24 e.state.index

/-! ## AgonMachine (`agon_machine.rs`)

The concrete `Machine` implementation: a byte array covering a 256 KiB
read-only ROM region (`0x00000..0x40000`) followed by a 512 KiB
read-write RAM region (`0x40000..0xC0000`), plus the host-filesystem
handle tables, the emulated current directory, and the `HL` result
register written by the trap handlers.

Host resources are abstracted: an open host file is recorded by the
presence of its keying struct address; an open directory iterator is the
list of its remaining entries (a `std::fs::ReadDir` advances by one entry
per `next()` and never rewinds; once it has returned `None` it keeps
returning `None`, which the empty list models).  The results of host
calls (`std::fs::read_dir`, `File::open`, `std::fs::metadata`) are
parameters of the trap-handler embeddings.
-/

/-- `ROM_SIZE` (agon_machine.rs:10). -/
def ROM_SIZE : Nat := 0x40000

/-- `RAM_SIZE` (agon_machine.rs:11). -/
def RAM_SIZE : Nat := 0x80000

/-- `MEM_SIZE` (agon_machine.rs:12). -/
def MEM_SIZE : Nat := ROM_SIZE + RAM_SIZE

/-- The two `std::io::ErrorKind` outcomes the trap handlers
distinguish. -/
inductive FsError where
  | notFound
  | other
  deriving DecidableEq

/-- The classification of `std::fs::metadata` on a host path, as consumed
by `hostfs_mos_f_chdir`: an existing directory, an existing
non-directory, `ErrorKind::NotFound`, or any other error. -/
inductive MetaResult where
  | dir
  | file
  | notFound
  | otherErr
  deriving DecidableEq

/-- One host directory entry as consumed by `hostfs_mos_f_readdir`:
its file name bytes, its metadata (length, directory attribute), and
whether `std::fs::metadata` on it succeeded. -/
structure DirEntry where
  name : List Nat
  size : Nat
  isDir : Bool
  metadataOk : Bool
  deriving DecidableEq

/-- One yield of `ReadDir::next`: `Some(Ok(entry))` or `Some(Err(_))`. -/
inductive EntryResult where
  | entry (e : DirEntry)
  | err
  deriving DecidableEq

/-- `AgonMachine` (agon_machine.rs:89-100), restricted to the state the
filesystem layer touches.  `hl` is the 24-bit `Reg16::HL` result register
the handlers write through `cpu.state.reg.set24`. -/
structure AgonMachine where
  mem : Nat → Nat
  open_files : Nat → Bool
  open_dirs : Nat → Option (List EntryResult)
  hostfs_current_dir : List String
  hl : Nat

/-- `Machine::peek` for `AgonMachine` (agon_machine.rs:103-110): reads at
or above `0xC0000` are reported and return zero. -/
def AgonMachine.peek (m : AgonMachine) (address : Nat) : Nat :=
  if 0xc0000 ≤ address then 0 else m.mem address

/-- `Machine::poke` for `AgonMachine` (agon_machine.rs:112-118): writes at
or above `0xC0000` or below `0x40000` (the ROM region) are reported and
discarded.  The stored value is the `u8` argument. -/
def AgonMachine.poke (m : AgonMachine) (address v : Nat) : AgonMachine :=
  if 0xc0000 ≤ address ∨ address < 0x40000 then m
  else { m with mem := fun x => if x = address then v % 2^8 else m.mem x }

/-- Modelled from the spec: the `Machine::_poke24` default method
(`machine.rs`, not under `src/`): a little-endian 24-bit store done as
three ordinary (bounds-checked) pokes at `address`, `address+1`,
`address+2`. -/
def AgonMachine.mach_poke24 (m : AgonMachine) (address v : Nat) : AgonMachine :=
  ((m.poke address (v % 2^8)).poke (address + 1) (v / 2^8 % 2^8)).poke
    (address + 2) (v / 2^16 % 2^8)

/-- `z80_mem_tools::memset` (agon_machine.rs:621-625): writes `fill` to
`count` consecutive addresses through the bounds-checked `poke`. -/
def z80_memset (m : AgonMachine) (address fill : Nat) : Nat → AgonMachine
  | 0 => m
  | Nat.succ n => z80_memset (m.poke address fill) (address + 1) fill n

/-- `z80_mem_tools::memcpy_to_z80` (agon_machine.rs:627-633): writes a
byte sequence starting at `start`, one bounds-checked poke per byte. -/
def memcpy_to_z80 (m : AgonMachine) (start : Nat) : List Nat → AgonMachine
  | [] => m
  | b :: rest => memcpy_to_z80 (m.poke start b) (start + 1) rest

/-- The byte sequence of an ASCII string (host file names and the
metadata-failure sentinel are written to guest memory as bytes). -/
def strBytes (s : String) : List Nat := s.toList.map Char.toNat

/-- `mos::SIZEOF_MOS_FIL_STRUCT` (agon_machine.rs:16). -/
def SIZEOF_MOS_FIL_STRUCT : Nat := 36

/-- `mos::FIL_MEMBER_OBJSIZE` (agon_machine.rs:17). -/
def FIL_MEMBER_OBJSIZE : Nat := 11

/-- `mos::SIZEOF_MOS_FILINFO_STRUCT` (agon_machine.rs:20). -/
def SIZEOF_MOS_FILINFO_STRUCT : Nat := 278

/-- `mos::FILINFO_MEMBER_FSIZE_U32` (agon_machine.rs:21). -/
def FILINFO_MEMBER_FSIZE_U32 : Nat := 0

/-- `mos::FILINFO_MEMBER_FATTRIB_U8` (agon_machine.rs:24). -/
def FILINFO_MEMBER_FATTRIB_U8 : Nat := 8

/-- `mos::FILINFO_MEMBER_FNAME_256BYTES` (agon_machine.rs:26). -/
def FILINFO_MEMBER_FNAME_256BYTES : Nat := 22

/-- `AgonMachine::hostfs_mos_f_opendir` (agon_machine.rs:460-493), with
the struct-pointer argument (read from the stack) and the result of
`std::fs::read_dir` on the resolved path as parameters.  The source sets
`HL` to 0/4/1 inside the match on the `read_dir` result, and then —
before the forced subroutine return — unconditionally executes
`cpu.state.reg.set24(Reg16::HL, 0)` again (line 490). -/
def hostfs_mos_f_opendir (m : AgonMachine) (dir_ptr : Nat)
    (outcome : Except FsError (List EntryResult)) : AgonMachine :=
  let m1 :=
    match outcome with
    | Except.ok dir =>
        { m with open_dirs := fun x => if x = dir_ptr then some dir else m.open_dirs x,
                 hl := 0 }
    | Except.error FsError.notFound => { m with hl := 4 }
    | Except.error FsError.other => { m with hl := 1 }
  { m1 with hl := 0 }

/-- `AgonMachine::hostfs_mos_f_open` (agon_machine.rs:499-552), with the
`FIL`-struct pointer (read from the stack) and the result of
`File::options()...open(path)` — the opened file's length on success —
as parameters.  On success: wipe the 36-byte `FIL` structure, cap the
length at 512 KiB (`1<<19`), store it at offset `FIL_MEMBER_OBJSIZE`,
register the handle, report 0.  On failure: report 4 (`NotFound`) or 1,
registering nothing. -/
def hostfs_mos_f_open (m : AgonMachine) (fptr : Nat)
    (outcome : Except FsError Nat) : AgonMachine :=
  match outcome with
  | Except.ok file_len =>
      let m1 := z80_memset m fptr 0 SIZEOF_MOS_FIL_STRUCT
      let m2 := m1.mach_poke24 (fptr + FIL_MEMBER_OBJSIZE) (min file_len (2^19))
      { m2 with open_files := fun x => if x = fptr then true else m2.open_files x,
                hl := 0 }
  | Except.error FsError.notFound => { m with hl := 4 }
  | Except.error FsError.other => { m with hl := 1 }

/-- `AgonMachine::hostfs_mos_f_readdir` (agon_machine.rs:351-413): zeroes
the 278-byte `FILINFO` structure, then advances the iterator registered
under `dir_ptr` by one.  A yielded entry has its name, 32-bit length and
directory attribute written (a metadata failure substitutes a sentinel
name); an exhausted iterator leaves the structure zeroed and reports
success; an unknown `dir_ptr` or an iterator error reports 1. -/
def hostfs_mos_f_readdir (m : AgonMachine) (dir_ptr fi_ptr : Nat) : AgonMachine :=
  let m1 := z80_memset m fi_ptr 0 SIZEOF_MOS_FILINFO_STRUCT
  match m1.open_dirs dir_ptr with
  | none => { m1 with hl := 1 }
  | some [] => { m1 with hl := 0 }
  | some (EntryResult.err :: rest) =>
      { m1 with open_dirs := fun x => if x = dir_ptr then some rest else m1.open_dirs x,
                hl := 1 }
  | some (EntryResult.entry e :: rest) =>
      let m2 :=
        { m1 with open_dirs := fun x => if x = dir_ptr then some rest else m1.open_dirs x }
      if e.metadataOk then
        let m3 := memcpy_to_z80 m2 (fi_ptr + FILINFO_MEMBER_FNAME_256BYTES) e.name
        let m4 := m3.mach_poke24 (fi_ptr + FILINFO_MEMBER_FSIZE_U32) e.size
        let m5 := m4.poke (fi_ptr + FILINFO_MEMBER_FSIZE_U32 + 3) (e.size / 2^24 % 2^8)
        let m6 := if e.isDir then m5.poke (fi_ptr + FILINFO_MEMBER_FATTRIB_U8) 0x10 else m5
        { m6 with hl := 0 }
      else
        { memcpy_to_z80 m2 (fi_ptr + FILINFO_MEMBER_FNAME_256BYTES)
            (strBytes "<error reading file metadata>") with hl := 0 }

/-- The path `hostfs_mos_f_chdir` builds before validating it
(agon_machine.rs:423-428): `".."` pops the last segment of the emulated
current directory (`PathBuf::pop`); anything else is joined onto it.
The emulated current directory is the list of its segments. -/
def chdir_new_path (cur : List String) (cd_to : String) : List String :=
  if cd_to = ".." then cur.dropLast else cur ++ [cd_to]

/-- `AgonMachine::hostfs_mos_f_chdir` (agon_machine.rs:415-452), with the
target string (read NUL-terminated from guest memory) and the
`std::fs::metadata` classification of host paths as parameters.  The new
path is committed only when it resolves to an existing directory;
`NotFound` reports 4, a non-directory or any other error reports 1, all
without committing. -/
def hostfs_mos_f_chdir (m : AgonMachine) (cd_to : String)
    (meta : List String → MetaResult) : AgonMachine :=
  match meta (chdir_new_path m.hostfs_current_dir cd_to) with
  | MetaResult.dir =>
      { m with hostfs_current_dir := chdir_new_path m.hostfs_current_dir cd_to, hl := 0 }
  | MetaResult.file => { m with hl := 1 }
  | MetaResult.notFound => { m with hl := 4 }
  | MetaResult.otherErr => { m with hl := 1 }

/-! ## Concrete states used by witnesses and counterexamples -/

/-- A register file with every pair holding `0x5000` and bank base 8. -/
def regs0 : Registers := { val := fun _ => 0x5000, mbase := 8 }

/-- A short-mode (operand-long flag clear) processor state. -/
def stShort : State :=
  { reg := regs0, pc := 0, op_long := false, imm_long := false,
    index := Reg16.HL, displacement := 0 }

/-- A long-mode (operand-long flag set) processor state. -/
def stLong : State := { stShort with op_long := true }

/-- The all-zero ideal memory. -/
def mem0 : Mem := fun _ => 0

/-- An ideal memory holding 7 in every byte. -/
def mem7 : Mem := fun _ => 7

/-- A register file whose IX pair holds `0x123456`, with bank base `0xAB`. -/
def regsIx : Registers :=
  { val := fun x => if x = Reg16.IX then 0x123456 else 0, mbase := 0xAB }

/-- A long-mode state with IX selected as the index register and zero
pending displacement. -/
def stIxLong : State :=
  { reg := regsIx, pc := 0, op_long := true, imm_long := true,
    index := Reg16.IX, displacement := 0 }

/-- The short-mode variant of `stIxLong`. -/
def stIxShort : State := { stIxLong with op_long := false }

/-- An `AgonMachine` with zeroed memory, no open handles, root current
directory and a cleared result register. -/
def am0 : AgonMachine :=
  { mem := fun _ => 0, open_files := fun _ => false, open_dirs := fun _ => none,
    hostfs_current_dir := [], hl := 0 }

/-- `am0` with an exhausted directory iterator registered under struct
address 9. -/
def amEmptyDir : AgonMachine :=
  { am0 with open_dirs := fun x => if x = 9 then some [] else none }

/-- `am0` with emulated current directory `a/b`. -/
def amAB : AgonMachine := { am0 with hostfs_current_dir := ["a", "b"] }

/-- A host-filesystem classification in which `a` is the only existing
directory. -/
def metaOnlyA : List String → MetaResult :=
  fun l => if l = ["a"] then MetaResult.dir else MetaResult.notFound

/-! ## Helper lemmas -/

lemma Mem.peek_poke_same (m : Mem) (a v : Nat) : (m.poke a v).peek a = v % 2^8 := by
  simp [Mem.peek, Mem.poke]

lemma Mem.peek_poke_ne (m : Mem) (a b v : Nat) (h : b ≠ a) :
    (m.poke a v).peek b = m.peek b := by
  simp [Mem.peek, Mem.poke, h]

lemma Mem.peek_lt (m : Mem) (a : Nat) : m.peek a < 2^8 :=
  Nat.mod_lt _ (by norm_num)

lemma int_one_mod_pow16 : ((1 : Int) % (2^16 : Int)).toNat = 1 := by decide

lemma int_one_mod_pow32 : ((1 : Int) % (2^32 : Int)).toNat = 1 := by decide

lemma int_two_mod_pow16 : ((2 : Int) % (2^16 : Int)).toNat = 2 := by decide

lemma int_two_mod_pow32 : ((2 : Int) % (2^32 : Int)).toNat = 2 := by decide

lemma wrap1_short (e : Env) (a : Nat) (h : e.state.op_long = false) :
    e.wrap_address a 1 = a / 2^16 % 2^8 * 2^16 + (a % 2^16 + 1) % 2^16 := by
  simp [Env.wrap_address, State.is_op_long, h, int_one_mod_pow16]

lemma wrap1_long (e : Env) (a : Nat) (h : e.state.op_long = true) :
    e.wrap_address a 1 = (a + 1) % 2^32 := by
  simp [Env.wrap_address, State.is_op_long, h, int_one_mod_pow32]

lemma wrap_cast_short (e : Env) (a k : Nat) (h : e.state.op_long = false) (hk : k < 2^16) :
    e.wrap_address a (k : Int) = a / 2^16 % 2^8 * 2^16 + (a % 2^16 + k) % 2^16 := by
  simp only [Env.wrap_address, State.is_op_long, h, Bool.false_eq_true, if_false]
  omega

lemma wrap_cast_long (e : Env) (a k : Nat) (h : e.state.op_long = true) (hk : k < 2^32) :
    e.wrap_address a (k : Int) = (a + k) % 2^32 := by
  simp only [Env.wrap_address, State.is_op_long, h, if_true]
  omega

lemma push_short_eq (st : State) (mem : Mem) (v : Nat) (h : st.op_long = false) :
    Env.push (Env.mk st mem) v
      = { state := { st with reg := (st.reg.set16 Reg16.SP (wsub1 (wsub1 st.sp))) },
          mem := ((mem.poke (wsub1 st.sp) (v / 2^8 % 2^8)).poke
                    (wsub1 (wsub1 st.sp)) (v % 2^8)) } := by
  simp [Env.push, State.is_op_long, h]

lemma push_long_eq (st : State) (mem : Mem) (v : Nat) (h : st.op_long = true) :
    Env.push (Env.mk st mem) v
      = { state := { st with reg := (st.reg.set24 Reg16.SP (wsub1 (wsub1 (wsub1 st.sp)))) },
          mem := (((mem.poke (wsub1 st.sp) (v / 2^16 % 2^8)).poke
                    (wsub1 (wsub1 st.sp)) (v / 2^8 % 2^8)).poke
                    (wsub1 (wsub1 (wsub1 st.sp))) (v % 2^8)) } := by
  simp [Env.push, State.is_op_long, h]

lemma pop_short_eq (e : Env) (h : e.state.op_long = false) :
    Env.pop e
      = (e.mem.peek e.state.sp + e.mem.peek (e.wrap_address e.state.sp 1) * 2^8,
         { e with state := { e.state with reg :=
             (e.state.reg.set16 Reg16.SP
               (e.wrap_address (e.wrap_address e.state.sp 1) 1)) } }) := by
  simp [Env.pop, State.is_op_long, h]

lemma pop_long_eq (e : Env) (h : e.state.op_long = true) :
    Env.pop e
      = (e.mem.peek e.state.sp + e.mem.peek (e.wrap_address e.state.sp 1) * 2^8
         + e.mem.peek (e.wrap_address (e.wrap_address e.state.sp 1) 1) * 2^16,
         { e with state := { e.state with reg :=
             (e.state.reg.set24 Reg16.SP
               (e.wrap_address (e.wrap_address (e.wrap_address e.state.sp 1) 1) 1)) } }) := by
  simp [Env.pop, State.is_op_long, h]

lemma pop_sp_short (e : Env) (h : e.state.op_long = false) :
    (e.pop).2.state.sp
      = e.state.reg.mbase % 2^8 * 2^16 + (e.state.sp % 2^16 + 2) % 2^16 := by
  rw [pop_short_eq e h, wrap1_short e _ h, wrap1_short e _ h]
  simp [State.sp, h, Registers.get16_mbase, Registers.set16]
  omega

lemma pop_sp_long (e : Env) (h : e.state.op_long = true) :
    (e.pop).2.state.sp = (e.state.sp + 3) % 2^24 := by
  rw [pop_long_eq e h, wrap1_long e _ h, wrap1_long e _ h, wrap1_long e _ h]
  simp [State.sp, h, Registers.get24, Registers.set24]
  omega

lemma pop_val_short (e : Env) (h : e.state.op_long = false) :
    (e.pop).1 = e.mem.peek e.state.sp
      + e.mem.peek (e.state.sp / 2^16 % 2^8 * 2^16 + (e.state.sp % 2^16 + 1) % 2^16) * 2^8 := by
  rw [pop_short_eq e h]
  dsimp only
  rw [wrap1_short e _ h]

lemma pop_val_long (e : Env) (h : e.state.op_long = true) :
    (e.pop).1 = e.mem.peek e.state.sp
      + e.mem.peek ((e.state.sp + 1) % 2^32) * 2^8
      + e.mem.peek (((e.state.sp + 1) % 2^32 + 1) % 2^32) * 2^16 := by
  rw [pop_long_eq e h]
  dsimp only
  rw [wrap1_long e _ h, wrap1_long e _ h]

lemma AgonMachine.poke_mem (m : AgonMachine) (a v x : Nat) :
    (m.poke a v).mem x
      = if 0x40000 ≤ a ∧ a < 0xc0000 ∧ x = a then v % 2^8 else m.mem x := by
  unfold AgonMachine.poke
  split_ifs with h1 h2 h3
  · omega
  · rfl
  · dsimp only
    rw [if_pos h3.2.2]
  · dsimp only
    rw [if_neg (show ¬x = a by omega)]

lemma AgonMachine.poke_open_files (m : AgonMachine) (a v : Nat) :
    (m.poke a v).open_files = m.open_files := by
  unfold AgonMachine.poke; split_ifs <;> rfl

lemma AgonMachine.poke_open_dirs (m : AgonMachine) (a v : Nat) :
    (m.poke a v).open_dirs = m.open_dirs := by
  unfold AgonMachine.poke; split_ifs <;> rfl

lemma AgonMachine.poke_hl (m : AgonMachine) (a v : Nat) :
    (m.poke a v).hl = m.hl := by
  unfold AgonMachine.poke; split_ifs <;> rfl

lemma AgonMachine.poke_cur (m : AgonMachine) (a v : Nat) :
    (m.poke a v).hostfs_current_dir = m.hostfs_current_dir := by
  unfold AgonMachine.poke; split_ifs <;> rfl

lemma z80_memset_mem (c : Nat) : ∀ (m : AgonMachine) (a f x : Nat),
    (z80_memset m a f c).mem x
      = if a ≤ x ∧ x < a + c ∧ 0x40000 ≤ x ∧ x < 0xc0000 then f % 2^8
        else m.mem x := by
  induction c with
  | zero =>
    intro m a f x
    simp only [z80_memset]
    rw [if_neg (by omega)]
  | succ n ih =>
    intro m a f x
    simp only [z80_memset]
    rw [ih, AgonMachine.poke_mem]
    split_ifs <;> omega

lemma z80_memset_open_files (c : Nat) : ∀ (m : AgonMachine) (a f : Nat),
    (z80_memset m a f c).open_files = m.open_files := by
  induction c with
  | zero => intro m a f; simp only [z80_memset]
  | succ n ih => intro m a f; simp only [z80_memset]; rw [ih, AgonMachine.poke_open_files]

lemma z80_memset_open_dirs (c : Nat) : ∀ (m : AgonMachine) (a f : Nat),
    (z80_memset m a f c).open_dirs = m.open_dirs := by
  induction c with
  | zero => intro m a f; simp only [z80_memset]
  | succ n ih => intro m a f; simp only [z80_memset]; rw [ih, AgonMachine.poke_open_dirs]

lemma z80_memset_cur (c : Nat) : ∀ (m : AgonMachine) (a f : Nat),
    (z80_memset m a f c).hostfs_current_dir = m.hostfs_current_dir := by
  induction c with
  | zero => intro m a f; simp only [z80_memset]
  | succ n ih => intro m a f; simp only [z80_memset]; rw [ih, AgonMachine.poke_cur]

/-! ## Claim theorems -/

/-- C1: For every 16-bit or 24-bit memory access the address of each
subsequent byte is computed mode-dependently: with the operand-long flag
clear, only the low 16 bits of the address increment and wrap while the
bank byte stays fixed; with the flag set the increment carries across the
full address space.  Concretely, `poke16` at `0x01FFFF` in short mode
writes its low byte at `0x01FFFF` and its high byte at `0x010000`, but in
long mode writes the high byte at `0x020000`. -/
theorem wrap_poke16_mode (e : Env) (a k v : Nat) (ha : a < 2^32) (hk : k < 2^16) :
    (e.state.op_long = false →
       e.wrap_address a (k : Int)
         = a / 2^16 % 2^8 * 2^16 + (a % 2^16 + k) % 2^16)
  ∧ (e.state.op_long = true → e.wrap_address a (k : Int) = (a + k) % 2^32)
  ∧ (e.state.op_long = false →
       ((e.poke16 0x01FFFF v).mem.peek 0x01FFFF = v % 2^8
        ∧ (e.poke16 0x01FFFF v).mem.peek 0x010000 = v / 2^8 % 2^8))
  ∧ (e.state.op_long = true →
       ((e.poke16 0x01FFFF v).mem.peek 0x01FFFF = v % 2^8
        ∧ (e.poke16 0x01FFFF v).mem.peek 0x020000 = v / 2^8 % 2^8)) := by
  refine ⟨fun h => wrap_cast_short e a k h hk,
          fun h => wrap_cast_long e a k h (by omega), ?_, ?_⟩
  · intro h
    have hw : e.wrap_address 0x01FFFF 1 = 0x010000 := by
      rw [wrap1_short e _ h]; norm_num
    constructor
    · show ((e.mem.poke 0x01FFFF (v % 2^8)).poke
          (e.wrap_address 0x01FFFF 1) (v / 2^8 % 2^8)).peek 0x01FFFF = v % 2^8
      rw [hw, Mem.peek_poke_ne _ _ _ _ (by norm_num), Mem.peek_poke_same]
      omega
    · show ((e.mem.poke 0x01FFFF (v % 2^8)).poke
          (e.wrap_address 0x01FFFF 1) (v / 2^8 % 2^8)).peek 0x010000 = v / 2^8 % 2^8
      rw [hw, Mem.peek_poke_same]
      omega
  · intro h
    have hw : e.wrap_address 0x01FFFF 1 = 0x020000 := by
      rw [wrap1_long e _ h]; norm_num
    constructor
    · show ((e.mem.poke 0x01FFFF (v % 2^8)).poke
          (e.wrap_address 0x01FFFF 1) (v / 2^8 % 2^8)).peek 0x01FFFF = v % 2^8
      rw [hw, Mem.peek_poke_ne _ _ _ _ (by norm_num), Mem.peek_poke_same]
      omega
    · show ((e.mem.poke 0x01FFFF (v % 2^8)).poke
          (e.wrap_address 0x01FFFF 1) (v / 2^8 % 2^8)).peek 0x020000 = v / 2^8 % 2^8
      rw [hw, Mem.peek_poke_same]
      omega

/-- Witness for C1, at `a = 0x01FFFF`, `k = 1`, `v = 0xABCD`, in both
modes. -/
theorem wrap_poke16_mode_witness :
    (Env.wrap_address (Env.mk stShort mem0) 0x01FFFF ((1 : Nat) : Int)
       = 0x01FFFF / 2^16 % 2^8 * 2^16 + (0x01FFFF % 2^16 + 1) % 2^16)
  ∧ (Env.wrap_address (Env.mk stLong mem0) 0x01FFFF ((1 : Nat) : Int)
       = (0x01FFFF + 1) % 2^32)
  ∧ ((Env.poke16 (Env.mk stShort mem0) 0x01FFFF 0xABCD).mem.peek 0x01FFFF
       = 0xABCD % 2^8
     ∧ (Env.poke16 (Env.mk stShort mem0) 0x01FFFF 0xABCD).mem.peek 0x010000
       = 0xABCD / 2^8 % 2^8)
  ∧ ((Env.poke16 (Env.mk stLong mem0) 0x01FFFF 0xABCD).mem.peek 0x01FFFF
       = 0xABCD % 2^8
     ∧ (Env.poke16 (Env.mk stLong mem0) 0x01FFFF 0xABCD).mem.peek 0x020000
       = 0xABCD / 2^8 % 2^8) :=
  ⟨(wrap_poke16_mode (Env.mk stShort mem0) 0x01FFFF 1 0xABCD (by norm_num) (by norm_num)).1 rfl,
   (wrap_poke16_mode (Env.mk stLong mem0) 0x01FFFF 1 0xABCD (by norm_num) (by norm_num)).2.1 rfl,
   (wrap_poke16_mode (Env.mk stShort mem0) 0x01FFFF 1 0xABCD (by norm_num) (by norm_num)).2.2.1 rfl,
   (wrap_poke16_mode (Env.mk stLong mem0) 0x01FFFF 1 0xABCD (by norm_num) (by norm_num)).2.2.2 rfl⟩

/-- C2, counterexample: in short mode a pushed value above `2^16` is not
returned exactly by the following pop — `push 0x12345; pop` yields
`0x2345`. -/
theorem push_pop_value_cex :
    (Env.pop (Env.push (Env.mk stShort mem0) 0x12345)).1 ≠ 0x12345 := by decide

/-- C2 (amended): `push(value)` followed by `pop()` with the operand-long
flag unchanged always leaves the stack-pointer register at its pre-push
position; the popped value equals `value` reduced to the mode's stack
width — `value % 2^16` in short mode (provided the low 16 bits of SP are
at least 2, so the two-byte frame does not cross the bank base) and
`value % 2^24` in long mode (provided SP ≥ 3). -/
theorem push_pop_roundtrip (st : State) (mem : Mem) (v : Nat) :
    (Env.pop (Env.push (Env.mk st mem) v)).2.state.sp = st.sp
  ∧ (st.op_long = false → 2 ≤ st.sp % 2^16 →
       (Env.pop (Env.push (Env.mk st mem) v)).1 = v % 2^16)
  ∧ (st.op_long = true → 3 ≤ st.sp →
       (Env.pop (Env.push (Env.mk st mem) v)).1 = v % 2^24) := by
  refine ⟨?_, ?_, ?_⟩
  · cases hmode : st.op_long with
    | false =>
      have hpush := push_short_eq st mem v hmode
      have hmode1 : (Env.push (Env.mk st mem) v).state.op_long = false := by
        rw [hpush]; exact hmode
      rw [pop_sp_short _ hmode1, hpush]
      simp [State.sp, hmode, Registers.get16_mbase, Registers.set16, wsub1]
      omega
    | true =>
      have hpush := push_long_eq st mem v hmode
      have hmode1 : (Env.push (Env.mk st mem) v).state.op_long = true := by
        rw [hpush]; exact hmode
      rw [pop_sp_long _ hmode1, hpush]
      simp [State.sp, hmode, Registers.get24, Registers.set24, wsub1]
      omega
  · intro h hS2
    have hpush := push_short_eq st mem v h
    have hmode1 : (Env.push (Env.mk st mem) v).state.op_long = false := by
      rw [hpush]; exact h
    have hsp : st.sp = st.reg.mbase % 2^8 * 2^16 + st.reg.val Reg16.SP % 2^16 := by
      simp [State.sp, h, Registers.get16_mbase]
    have hw1 : wsub1 st.sp = st.sp - 1 := by unfold wsub1; omega
    have hw2 : wsub1 (st.sp - 1) = st.sp - 2 := by unfold wsub1; omega
    rw [pop_val_short _ hmode1, hpush]
    dsimp only
    rw [hw1, hw2]
    have hsp1 : State.sp { st with reg := (st.reg.set16 Reg16.SP (st.sp - 2)) }
        = st.sp - 2 := by
      simp [State.sp, h, Registers.get16_mbase, Registers.set16]
      omega
    rw [hsp1]
    have haddr : (st.sp - 2) / 2^16 % 2^8 * 2^16 + ((st.sp - 2) % 2^16 + 1) % 2^16
        = st.sp - 1 := by omega
    rw [haddr]
    rw [Mem.peek_poke_same,
        Mem.peek_poke_ne _ _ _ _ (show st.sp - 1 ≠ st.sp - 2 by omega),
        Mem.peek_poke_same]
    omega
  · intro h h3
    have hpush := push_long_eq st mem v h
    have hmode1 : (Env.push (Env.mk st mem) v).state.op_long = true := by
      rw [hpush]; exact h
    have hsp : st.sp = st.reg.val Reg16.SP % 2^24 := by
      simp [State.sp, h, Registers.get24]
    have hw1 : wsub1 st.sp = st.sp - 1 := by unfold wsub1; omega
    have hw2 : wsub1 (st.sp - 1) = st.sp - 2 := by unfold wsub1; omega
    have hw3 : wsub1 (st.sp - 2) = st.sp - 3 := by unfold wsub1; omega
    rw [pop_val_long _ hmode1, hpush]
    dsimp only
    rw [hw1, hw2, hw3]
    have hsp1 : State.sp { st with reg := (st.reg.set24 Reg16.SP (st.sp - 3)) }
        = st.sp - 3 := by
      simp [State.sp, h, Registers.get24, Registers.set24]
      omega
    rw [hsp1]
    have haddr1 : (st.sp - 3 + 1) % 2^32 = st.sp - 2 := by omega
    rw [haddr1]
    have haddr2 : (st.sp - 2 + 1) % 2^32 = st.sp - 1 := by omega
    rw [haddr2]
    rw [Mem.peek_poke_same,
        Mem.peek_poke_ne _ _ _ _ (show st.sp - 2 ≠ st.sp - 3 by omega),
        Mem.peek_poke_same,
        Mem.peek_poke_ne _ _ _ _ (show st.sp - 1 ≠ st.sp - 3 by omega),
        Mem.peek_poke_ne _ _ _ _ (show st.sp - 1 ≠ st.sp - 2 by omega),
        Mem.peek_poke_same]
    omega

/-- Witness for C2 (amended): a short-mode roundtrip at SP `0x85000`,
value `0x12345`. -/
theorem push_pop_roundtrip_witness :
    (Env.pop (Env.push (Env.mk stShort mem0) 0x12345)).2.state.sp = stShort.sp
  ∧ (Env.pop (Env.push (Env.mk stShort mem0) 0x12345)).1 = 0x12345 % 2^16 :=
  ⟨(push_pop_roundtrip stShort mem0 0x12345).1,
   (push_pop_roundtrip stShort mem0 0x12345).2.1 rfl (by decide)⟩

/-- C3 (code evaluation): with the operand-long flag set, `index_address`
dereferences the bank-base-relocated 16-bit index value (`0xAB3456`), not
the full 24-bit value (`0x123456`) — and with the flag clear it is the
other way round.  `index_value`, directly above it in the source, selects
the two the other way, as the claim describes. -/
theorem index_address_swapped :
    Env.index_address (Env.mk stIxLong mem0) = 0xAB3456
  ∧ Env.index_value (Env.mk stIxLong mem0) = 0x123456
  ∧ Env.index_address (Env.mk stIxShort mem0) = 0x123456
  ∧ Env.index_value (Env.mk stIxShort mem0) = 0xAB3456 := by decide

/-- C9: `subroutine_return` pops a value and aborts exactly when that
value is zero; for any non-zero popped value it continues with the
program counter set to the value. -/
theorem subroutine_return_spec (e : Env) :
    (e.subroutine_return = none ↔ (e.pop).1 = 0)
  ∧ ((e.pop).1 ≠ 0 →
      ∃ e2, e.subroutine_return = some e2
        ∧ e2.state.pc = (e.pop).1 ∧ e2.mem = (e.pop).2.mem
        ∧ e2.state.reg = (e.pop).2.state.reg) := by
  constructor
  · unfold Env.subroutine_return
    split_ifs with h
    · simp [h]
    · simp [h]
  · intro h
    unfold Env.subroutine_return
    rw [if_neg h]
    exact ⟨_, rfl, rfl, rfl, rfl⟩

/-- Witness for C9: a pop yielding 0 aborts, a pop yielding `0x707`
continues there. -/
theorem subroutine_return_spec_witness :
    (Env.mk stShort mem0).subroutine_return = none
  ∧ ∃ e2, (Env.mk stShort mem7).subroutine_return = some e2
      ∧ e2.state.pc = ((Env.mk stShort mem7).pop).1
      ∧ e2.mem = ((Env.mk stShort mem7).pop).2.mem
      ∧ e2.state.reg = ((Env.mk stShort mem7).pop).2.state.reg :=
  ⟨(subroutine_return_spec (Env.mk stShort mem0)).1.mpr (by decide),
   (subroutine_return_spec (Env.mk stShort mem7)).2 (by decide)⟩

/-- C10: in short mode `pop` returns a value below `2^16`, and `push`
stores only the low 16 bits of its argument — pushing `value` and pushing
`value % 2^16` produce identical machines, so a short-mode
push-then-pop can recover at most `value % 2^16`. -/
theorem short_stack_width (e : Env) (v : Nat) (h : e.state.op_long = false) :
    (e.pop).1 < 2^16
  ∧ e.push v = e.push (v % 2^16)
  ∧ (Env.pop (e.push v)).1 = (Env.pop (e.push (v % 2^16))).1 := by
  have h1 : (e.pop).1 < 2^16 := by
    rw [pop_short_eq e h]
    have ha := Mem.peek_lt e.mem e.state.sp
    have hb := Mem.peek_lt e.mem (e.wrap_address e.state.sp 1)
    dsimp only
    omega
  have h2 : e.push v = e.push (v % 2^16) := by
    obtain ⟨st, mem⟩ := e
    rw [push_short_eq st mem v h, push_short_eq st mem (v % 2^16) h]
    have e1 : v % 2^16 % 2^8 = v % 2^8 := by omega
    have e2 : v % 2^16 / 2^8 % 2^8 = v / 2^8 % 2^8 := by omega
    rw [e1, e2]
  exact ⟨h1, h2, by rw [h2]⟩

/-- Witness for C10 at value `0x12345`. -/
theorem short_stack_width_witness :
    ((Env.mk stShort mem7).pop).1 < 2^16
  ∧ Env.push (Env.mk stShort mem7) 0x12345
      = Env.push (Env.mk stShort mem7) (0x12345 % 2^16)
  ∧ (Env.pop (Env.push (Env.mk stShort mem7) 0x12345)).1
      = (Env.pop (Env.push (Env.mk stShort mem7) (0x12345 % 2^16))).1 :=
  short_stack_width (Env.mk stShort mem7) 0x12345 rfl

/-- C4 (code evaluation): the opendir trap handler reports 0 in `HL`
whatever the `read_dir` outcome — the unconditional success write that
follows the match clobbers the error codes 4 and 1 its arms set. -/
theorem opendir_reports_zero (m : AgonMachine) (dp : Nat)
    (o : Except FsError (List EntryResult)) :
    (hostfs_mos_f_opendir m dp o).hl = 0 := by
  unfold hostfs_mos_f_opendir
  rfl

/-- C5: for writable RAM addresses `poke` then `peek` returns the written
byte; at or beyond `0xC0000` `peek` is zero and `poke` changes nothing;
`poke` into ROM (below `0x40000`) changes nothing. -/
theorem agon_peek_poke_bounds (m : AgonMachine) (a v : Nat) (hv : v < 2^8) :
    (0x40000 ≤ a → a < 0xc0000 → (m.poke a v).peek a = v)
  ∧ (0xc0000 ≤ a → m.peek a = 0 ∧ (m.poke a v).mem = m.mem)
  ∧ (a < 0x40000 → (m.poke a v).mem = m.mem) := by
  refine ⟨?_, ?_, ?_⟩
  · intro h1 h2
    unfold AgonMachine.peek
    rw [if_neg (by omega), AgonMachine.poke_mem, if_pos ⟨h1, h2, rfl⟩]
    omega
  · intro h1
    refine ⟨?_, ?_⟩
    · unfold AgonMachine.peek
      rw [if_pos h1]
    · unfold AgonMachine.poke
      rw [if_pos (Or.inl h1)]
  · intro h1
    unfold AgonMachine.poke
    rw [if_pos (Or.inr h1)]

/-- Witness for C5 at RAM address `0x50000`, out-of-bounds address
`0xC0000` and ROM address `0x1000`, byte `0x5A`. -/
theorem agon_peek_poke_bounds_witness :
    ((AgonMachine.poke am0 0x50000 0x5A).peek 0x50000 = 0x5A)
  ∧ (AgonMachine.peek am0 0xc0000 = 0
     ∧ (AgonMachine.poke am0 0xc0000 0x5A).mem = am0.mem)
  ∧ ((AgonMachine.poke am0 0x1000 0x5A).mem = am0.mem) :=
  ⟨(agon_peek_poke_bounds am0 0x50000 0x5A (by norm_num)).1 (by norm_num) (by norm_num),
   (agon_peek_poke_bounds am0 0xc0000 0x5A (by norm_num)).2.1 (by norm_num),
   (agon_peek_poke_bounds am0 0x1000 0x5A (by norm_num)).2.2 (by norm_num)⟩

/-- C6: on success the open trap handler wipes the 36-byte `FIL`
structure, stores the file length capped at 512 KiB little-endian at
offset 11, registers the handle under the struct address and reports 0;
on failure it reports 4 (not found) or 1 (other) and registers nothing. -/
theorem f_open_spec (m : AgonMachine) (fptr len : Nat)
    (h1 : 0x40000 ≤ fptr) (h2 : fptr + 36 ≤ 0xc0000) :
    ((hostfs_mos_f_open m fptr (Except.ok len)).hl = 0
     ∧ (hostfs_mos_f_open m fptr (Except.ok len)).open_files fptr = true
     ∧ (hostfs_mos_f_open m fptr (Except.ok len)).peek (fptr + 11)
         = min len (2^19) % 2^8
     ∧ (hostfs_mos_f_open m fptr (Except.ok len)).peek (fptr + 12)
         = min len (2^19) / 2^8 % 2^8
     ∧ (hostfs_mos_f_open m fptr (Except.ok len)).peek (fptr + 13)
         = min len (2^19) / 2^16 % 2^8
     ∧ ∀ i, i < 36 → i ≠ 11 → i ≠ 12 → i ≠ 13 →
         (hostfs_mos_f_open m fptr (Except.ok len)).peek (fptr + i) = 0)
  ∧ ((hostfs_mos_f_open m fptr (Except.error FsError.notFound)).hl = 4
     ∧ (hostfs_mos_f_open m fptr (Except.error FsError.notFound)).open_files
         = m.open_files)
  ∧ ((hostfs_mos_f_open m fptr (Except.error FsError.other)).hl = 1
     ∧ (hostfs_mos_f_open m fptr (Except.error FsError.other)).open_files
         = m.open_files) := by
  have hres : hostfs_mos_f_open m fptr (Except.ok len)
      = { (z80_memset m fptr 0 36).mach_poke24 (fptr + 11) (min len (2^19)) with
          open_files := fun x => if x = fptr then true
            else ((z80_memset m fptr 0 36).mach_poke24 (fptr + 11)
                    (min len (2^19))).open_files x,
          hl := 0 } := rfl
  have hmem : ∀ x, ((z80_memset m fptr 0 36).mach_poke24 (fptr + 11)
        (min len (2^19))).mem x
      = (if x = fptr + 13 then min len (2^19) / 2^16 % 2^8
         else if x = fptr + 12 then min len (2^19) / 2^8 % 2^8
         else if x = fptr + 11 then min len (2^19) % 2^8
         else if fptr ≤ x ∧ x < fptr + 36 then 0
         else m.mem x) := by
    intro x
    unfold AgonMachine.mach_poke24
    rw [AgonMachine.poke_mem, AgonMachine.poke_mem, AgonMachine.poke_mem,
        z80_memset_mem]
    split_ifs <;> omega
  have hpeek : ∀ i, i < 36 →
      (hostfs_mos_f_open m fptr (Except.ok len)).peek (fptr + i)
        = ((z80_memset m fptr 0 36).mach_poke24 (fptr + 11) (min len (2^19))).mem
            (fptr + i) := by
    intro i hi
    rw [hres]
    unfold AgonMachine.peek
    rw [if_neg (by omega)]
  refine ⟨⟨?_, ?_, ?_, ?_, ?_, ?_⟩, ⟨rfl, rfl⟩, ⟨rfl, rfl⟩⟩
  · rw [hres]
  · rw [hres]
    simp
  · rw [hpeek 11 (by norm_num), hmem]
    rw [if_neg (by omega), if_neg (by omega), if_pos rfl]
  · rw [hpeek 12 (by norm_num), hmem]
    rw [if_neg (by omega), if_pos rfl]
  · rw [hpeek 13 (by norm_num), hmem]
    rw [if_pos rfl]
  · intro i hi hi11 hi12 hi13
    rw [hpeek i hi, hmem]
    rw [if_neg (by omega), if_neg (by omega), if_neg (by omega),
        if_pos (by omega)]

/-- Witness for C6 at struct address `0x50000` and host file length
`0x90000` (above the 512 KiB cap). -/
theorem f_open_spec_witness :
    ((hostfs_mos_f_open am0 0x50000 (Except.ok 0x90000)).hl = 0
     ∧ (hostfs_mos_f_open am0 0x50000 (Except.ok 0x90000)).open_files 0x50000 = true
     ∧ (hostfs_mos_f_open am0 0x50000 (Except.ok 0x90000)).peek (0x50000 + 11)
         = min 0x90000 (2^19) % 2^8
     ∧ (hostfs_mos_f_open am0 0x50000 (Except.ok 0x90000)).peek (0x50000 + 12)
         = min 0x90000 (2^19) / 2^8 % 2^8
     ∧ (hostfs_mos_f_open am0 0x50000 (Except.ok 0x90000)).peek (0x50000 + 13)
         = min 0x90000 (2^19) / 2^16 % 2^8
     ∧ ∀ i, i < 36 → i ≠ 11 → i ≠ 12 → i ≠ 13 →
         (hostfs_mos_f_open am0 0x50000 (Except.ok 0x90000)).peek (0x50000 + i) = 0)
  ∧ ((hostfs_mos_f_open am0 0x50000 (Except.error FsError.notFound)).hl = 4
     ∧ (hostfs_mos_f_open am0 0x50000 (Except.error FsError.notFound)).open_files
         = am0.open_files)
  ∧ ((hostfs_mos_f_open am0 0x50000 (Except.error FsError.other)).hl = 1
     ∧ (hostfs_mos_f_open am0 0x50000 (Except.error FsError.other)).open_files
         = am0.open_files) :=
  f_open_spec am0 0x50000 0x90000 (by norm_num) (by norm_num)

/-- C7: `chdir ".."` drops exactly the last segment of the emulated
current directory (when the parent validates as a directory); a target
whose joined path does not exist reports 4 and leaves the current
directory untouched. -/
theorem f_chdir_spec (m : AgonMachine) (p : String)
    (fsm : List String → MetaResult) :
    (fsm (m.hostfs_current_dir.dropLast) = MetaResult.dir →
       (hostfs_mos_f_chdir m ".." fsm).hostfs_current_dir
           = m.hostfs_current_dir.dropLast
       ∧ (hostfs_mos_f_chdir m ".." fsm).hl = 0)
  ∧ (fsm (chdir_new_path m.hostfs_current_dir p) = MetaResult.notFound →
       (hostfs_mos_f_chdir m p fsm).hostfs_current_dir = m.hostfs_current_dir
       ∧ (hostfs_mos_f_chdir m p fsm).hl = 4) := by
  constructor
  · intro h
    have hnp : chdir_new_path m.hostfs_current_dir ".."
        = m.hostfs_current_dir.dropLast := by
      simp [chdir_new_path]
    unfold hostfs_mos_f_chdir
    rw [hnp, h]
    exact ⟨rfl, rfl⟩
  · intro h
    unfold hostfs_mos_f_chdir
    rw [h]
    exact ⟨rfl, rfl⟩

/-- Witness for C7: from emulated directory `a/b`, `".."` lands in `a`;
`"zzz"` does not exist, reports 4 and leaves `a/b` unchanged. -/
theorem f_chdir_spec_witness :
    ((hostfs_mos_f_chdir amAB ".." metaOnlyA).hostfs_current_dir
        = amAB.hostfs_current_dir.dropLast
     ∧ (hostfs_mos_f_chdir amAB ".." metaOnlyA).hl = 0)
  ∧ ((hostfs_mos_f_chdir amAB "zzz" metaOnlyA).hostfs_current_dir
        = amAB.hostfs_current_dir
     ∧ (hostfs_mos_f_chdir amAB "zzz" metaOnlyA).hl = 4) :=
  ⟨(f_chdir_spec amAB "zzz" metaOnlyA).1 (by decide),
   (f_chdir_spec amAB "zzz" metaOnlyA).2 (by decide)⟩

set_option maxRecDepth 8000 in
/-- C8: the readdir trap handler zeroes the whole 278-byte `FILINFO`
structure before consulting the iterator; on an exhausted iterator it
reports 0 and leaves the structure entirely zeroed, and a repeated call
on the same exhausted iterator does the same (an unknown handle reports 1,
the structure again zeroed). -/
theorem f_readdir_spec (m : AgonMachine) (dp fi : Nat)
    (h1 : 0x40000 ≤ fi) (h2 : fi + 278 ≤ 0xc0000) :
    (m.open_dirs dp = none →
       ((hostfs_mos_f_readdir m dp fi).hl = 1
        ∧ ∀ i, i < 278 → (hostfs_mos_f_readdir m dp fi).peek (fi + i) = 0))
  ∧ (m.open_dirs dp = some [] →
       ((hostfs_mos_f_readdir m dp fi).hl = 0
        ∧ (hostfs_mos_f_readdir m dp fi).open_dirs dp = some []
        ∧ (∀ i, i < 278 → (hostfs_mos_f_readdir m dp fi).peek (fi + i) = 0)
        ∧ (hostfs_mos_f_readdir (hostfs_mos_f_readdir m dp fi) dp fi).hl = 0
        ∧ (hostfs_mos_f_readdir (hostfs_mos_f_readdir m dp fi) dp fi).open_dirs dp
            = some []
        ∧ ∀ i, i < 278 →
            (hostfs_mos_f_readdir (hostfs_mos_f_readdir m dp fi) dp fi).peek (fi + i)
              = 0)) := by
  have hz : ∀ (mx : AgonMachine) (c i : Nat), i < 278 →
      AgonMachine.peek
        { mem := (z80_memset mx fi 0 278).mem,
          open_files := (z80_memset mx fi 0 278).open_files,
          open_dirs := (z80_memset mx fi 0 278).open_dirs,
          hostfs_current_dir := (z80_memset mx fi 0 278).hostfs_current_dir,
          hl := c } (fi + i) = 0 := by
    intro mx c i hi
    unfold AgonMachine.peek
    rw [if_neg (by omega)]
    dsimp only
    rw [z80_memset_mem, if_pos (by omega)]
    norm_num
  have hnone : ∀ mx : AgonMachine, mx.open_dirs dp = none →
      hostfs_mos_f_readdir mx dp fi
        = { mem := (z80_memset mx fi 0 278).mem,
            open_files := (z80_memset mx fi 0 278).open_files,
            open_dirs := (z80_memset mx fi 0 278).open_dirs,
            hostfs_current_dir := (z80_memset mx fi 0 278).hostfs_current_dir,
            hl := 1 } := by
    intro mx h3
    simp only [hostfs_mos_f_readdir, SIZEOF_MOS_FILINFO_STRUCT]
    rw [z80_memset_open_dirs, h3]
  have hempty : ∀ mx : AgonMachine, mx.open_dirs dp = some [] →
      hostfs_mos_f_readdir mx dp fi
        = { mem := (z80_memset mx fi 0 278).mem,
            open_files := (z80_memset mx fi 0 278).open_files,
            open_dirs := (z80_memset mx fi 0 278).open_dirs,
            hostfs_current_dir := (z80_memset mx fi 0 278).hostfs_current_dir,
            hl := 0 } := by
    intro mx h3
    simp only [hostfs_mos_f_readdir, SIZEOF_MOS_FILINFO_STRUCT]
    rw [z80_memset_open_dirs, h3]
  constructor
  · intro h3
    rw [hnone m h3]
    exact ⟨rfl, fun i hi => hz m 1 i hi⟩
  · intro h3
    have hr1 := hempty m h3
    have hd1 : (hostfs_mos_f_readdir m dp fi).open_dirs dp = some [] := by
      rw [hr1]
      dsimp only
      rw [z80_memset_open_dirs]
      exact h3
    have hr2 := hempty (hostfs_mos_f_readdir m dp fi) hd1
    refine ⟨by rw [hr1], hd1, fun i hi => by rw [hr1]; exact hz m 0 i hi, by rw [hr2],
            ?_, fun i hi => by rw [hr2]; exact hz (hostfs_mos_f_readdir m dp fi) 0 i hi⟩
    rw [hr2]
    dsimp only
    rw [z80_memset_open_dirs]
    exact hd1

/-- Witness for C8: an exhausted iterator registered under address 9,
`FILINFO` struct at `0x50000`. -/
theorem f_readdir_spec_witness :
    (hostfs_mos_f_readdir amEmptyDir 9 0x50000).hl = 0
  ∧ (hostfs_mos_f_readdir amEmptyDir 9 0x50000).open_dirs 9 = some []
  ∧ (∀ i, i < 278 →
      (hostfs_mos_f_readdir amEmptyDir 9 0x50000).peek (0x50000 + i) = 0)
  ∧ (hostfs_mos_f_readdir (hostfs_mos_f_readdir amEmptyDir 9 0x50000) 9 0x50000).hl = 0
  ∧ (hostfs_mos_f_readdir (hostfs_mos_f_readdir amEmptyDir 9 0x50000) 9
       0x50000).open_dirs 9 = some []
  ∧ ∀ i, i < 278 →
      (hostfs_mos_f_readdir (hostfs_mos_f_readdir amEmptyDir 9 0x50000) 9
        0x50000).peek (0x50000 + i) = 0 :=
  (f_readdir_spec amEmptyDir 9 0x50000 (by norm_num) (by norm_num)).2 (by decide)

end EZ80
